import Mathlib

/-!
Verification of the repository-data aggregation core of the portfolio app.

The embedding below translates, from `src/app/page.tsx`:
  * the projects fetch cycle `fetchGitHubProjects` (lines 936-1201):
    cache check, repository listing, per-repository filtering and
    enrichment, sort, cap, cache write, and the unauthenticated fallback;
  * the commits fetch cycle `fetchGitHubData` (lines 863-933);
  * the transport retry loop `GitHubAPIClient.fetchWithRetry`
    (lines 1613-1639);
and from `src/app/api/contact/route.ts` the contact relay `POST` handler.

Network and storage effects are modelled by explicit environments: every
remote endpoint's outcome is a value of an inductive type recording
whether the call threw, returned a non-ok response, or returned a parsed
body.  Timestamps are milliseconds as `Nat` (JavaScript `Date.now()`
never produces negatives, and `now - t` clamped at 0 for a future `t`
agrees with the source, where a negative age never exceeds the expiry).
JSON (de)serialisation through `localStorage` is treated as the identity
on the already-parsed payload.  Locale date formatting is out of scope;
the `updated` display field carries the raw `updated_at` timestamp.
-/

namespace Portfolio

/-! ## Character-level string helpers (JS `toLowerCase`, `includes`) -/

/-- Lower-cased character sequence of a string (JS `String.toLowerCase`). -/
def lowerStr (s : String) : List Char :=
  s.toList.map Char.toLower

/-- The test `containsSub n h` is JS `h.includes(n)`: `n` occurs contiguously in `h`. -/
def containsSub (n : List Char) : List Char → Bool
  | [] => n.isPrefixOf []
  | c :: t => n.isPrefixOf (c :: t) || containsSub n t

/-! ## Data model: raw repositories and enriched projects -/

/-- A repository record as consumed from the listing endpoint.  Field names
follow the GitHub REST payload used by the source (`private` is a Lean
keyword, hence `isPrivate`).  Timestamps are epoch milliseconds. -/
structure Repo where
  name : String
  description : Option String
  size : Nat
  isPrivate : Bool
  fork : Bool
  stargazers_count : Nat
  forks_count : Nat
  language : Option String
  html_url : String
  updated_at : Nat
  pushed_at : Option Nat
  created_at : Nat
deriving DecidableEq

/-- An enriched project entry, the unit of `fetchGitHubProjects` output
(the object literal pushed onto `projectsData`). -/
structure Project where
  name : String
  description : String
  tech : List String
  status : String
  stars : Nat
  forks : Nat
  updated : Nat
  commitCount : Nat
  url : String
  language : String
  size : Nat
  createdAt : Nat
  pushedAt : Nat
deriving DecidableEq

/-- JS `o || d` for an optional string (both `null` and `""` are falsy). -/
def strOr (o : Option String) (d : String) : String :=
  match o with
  | none => d
  | some s => if s == "" then d else s

/-- JS truthiness of an optional string value. -/
def strTruthy (o : Option String) : Bool :=
  match o with
  | none => false
  | some s => !(s == "")

/-- JS `repo.pushed_at || repo.updated_at` (line 1098). -/
def pushedOr (o : Option Nat) (d : Nat) : Nat :=
  match o with
  | none => d
  | some v => v

/-! ## Step 3: per-repository filtering (lines 991-1009) -/

/-- The "likely starred/bookmarked" filter of the primary path: name or
description contains one of the literal substrings, or the repo is an
empty public fork (lines 995-1005). -/
def isLikelyStarred (r : Repo) : Bool :=
  let nameL := lowerStr r.name
  let descL := lowerStr (r.description.getD "")
  containsSub "awesome-".toList nameL ||
  containsSub "curated".toList nameL ||
  containsSub "list-".toList nameL ||
  containsSub "resources".toList nameL ||
  containsSub "curated".toList descL ||
  containsSub "collection of".toList descL ||
  containsSub "awesome list".toList descL ||
  containsSub "list of".toList descL ||
  (r.size == 0 && !r.isPrivate && r.fork)

/-! ## Step 4: per-repository enrichment environment (lines 1011-1103) -/

/-- Outcome of the contributors listing (lines 1015-1030): the fetch threw,
the response was not ok, the body was not an array, or it was an array of
`contributions` counts (`contributor.contributions || 0`). -/
inductive ContribResp where
  | thrown
  | notOk
  | okNonArray
  | okArray (contribs : List Nat)
deriving DecidableEq

/-- Outcome of the one-commit-per-page request (lines 1034-1045): threw,
non-ok, ok with a `Link` header matching `page=(\d+)>; rel="last"`, ok with
a `Link` header but no match, or ok with no `Link` header at all. -/
inductive CommitsPageResp where
  | thrown
  | notOk
  | okLinkMatch (lastPage : Nat)
  | okLinkNoMatch
  | okNoLink
deriving DecidableEq

/-- Outcome of the full commit-list request (lines 1047-1053). -/
inductive AllCommitsResp where
  | thrown
  | notOk
  | okNonArray
  | okArray (len : Nat)
deriving DecidableEq

/-- Outcome of the language-breakdown request (lines 1063-1073):
`Object.keys(languages)` in API order when ok. -/
inductive LangResp where
  | thrown
  | notOk
  | ok (keys : List String)
deriving DecidableEq

/-- The network outcomes one repository's enrichment observes.
`unexpectedThrow` models a failure escaping the inner try/catch blocks and
reaching the per-repository catch (lines 1105-1124). -/
structure RepoEnv where
  contributors : ContribResp
  commitsPage : CommitsPageResp
  allCommits : AllCommitsResp
  languages : LangResp
  unexpectedThrow : Bool
deriving DecidableEq

/-- Commit-count resolution (lines 1012-1059).  Method 1: sum contributor
`contributions`.  Method 2 (only when that left 0): one-commit-per-page
pagination; a thrown request there defaults to 1; with no `Link` header the
full list is fetched and its length used (1 when not an array). -/
def computeCommitCount (e : RepoEnv) : Nat :=
  let c1 : Nat :=
    match e.contributors with
    | .okArray l => l.foldl (· + ·) 0
    | _ => 0
  if c1 == 0 then
    match e.commitsPage with
    | .thrown => 1
    | .notOk => 0
    | .okLinkMatch n => n
    | .okLinkNoMatch => 0
    | .okNoLink =>
      match e.allCommits with
      | .thrown => 1
      | .notOk => 0
      | .okNonArray => 1
      | .okArray len => len
  else c1

/-- Tech-stack resolution (lines 1061-1081): top 4 language keys, else the
repository's primary language, else the literal `"Code"`. -/
def computeTechStack (e : RepoEnv) (r : Repo) : List String :=
  let ts : List String :=
    match e.languages with
    | .ok keys => keys.take 4
    | _ => []
  let ts := if ts.isEmpty then (if strTruthy r.language then [r.language.getD ""] else []) else ts
  if ts.isEmpty then ["Code"] else ts

/-- The object literal pushed on the success path (lines 1085-1099). -/
def mkProject (r : Repo) (cc : Nat) (ts : List String) : Project :=
  { name := r.name
    description := strOr r.description "No description available"
    tech := ts
    status := if r.isPrivate then "private" else (if r.fork then "fork" else "public")
    stars := r.stargazers_count
    forks := r.forks_count
    updated := r.updated_at
    commitCount := cc
    url := r.html_url
    language := strOr r.language "Code"
    size := r.size
    createdAt := r.created_at
    pushedAt := pushedOr r.pushed_at r.updated_at }

/-- One loop iteration (lines 988-1125): excluded repositories yield
nothing; an unexpected throw lands in the degraded catch push (commit count
1 for private or nonzero-size repositories, else 0); otherwise the repo is
kept only when `commitCount > 0 || repo.private`. -/
def processRepo (r : Repo) (e : RepoEnv) : Option Project :=
  if isLikelyStarred r then none
  else if e.unexpectedThrow then
    some (mkProject r (if r.isPrivate then 1 else (if r.size > 0 then 1 else 0))
      [strOr r.language "Code"])
  else
    let cc := computeCommitCount e
    let ts := computeTechStack e r
    if cc > 0 || r.isPrivate then some (mkProject r cc ts) else none

/-- The enrichment loop over the first repositories, indexed so that the
`i`-th listed repository observes environment `env i`. -/
def enrichFrom (env : Nat → RepoEnv) : Nat → List Repo → List Project
  | _, [] => []
  | i, r :: rest =>
    match processRepo r (env i) with
    | some p => p :: enrichFrom env (i + 1) rest
    | none => enrichFrom env (i + 1) rest

/-! ## Step 5: sort (lines 1128-1137)

`Array.prototype.sort` with a consistent comparator produces a stable
sorted permutation; `jsSort` is a structural insertion sort realising that
contract, with `le a b` meaning `comparator(a, b) <= 0`. -/

/-- Insert `a` after every element `b` with `le b a` (stable insertion). -/
def jsInsert {α : Type} (le : α → α → Bool) (a : α) : List α → List α
  | [] => [a]
  | b :: t => if le b a then b :: jsInsert le a t else a :: b :: t

/-- Stable insertion sort with respect to `le`. -/
def jsSort {α : Type} (le : α → α → Bool) : List α → List α
  | [] => []
  | a :: t => jsInsert le a (jsSort le t)

/-- The comparator of lines 1128-1137 as a "may precede" relation:
`pushedAt` descending, then `commitCount` descending. -/
def projLe (a b : Project) : Bool :=
  if a.pushedAt == b.pushedAt then decide (b.commitCount ≤ a.commitCount)
  else decide (b.pushedAt < a.pushedAt)

/-! ## Steps 2-6 composed, plus the cache (lines 936-1201) -/

/-- Expiry window of the projects cache (line 939). -/
def PROJECTS_EXPIRY : Nat := 30 * 60 * 1000

/-- Expiry window of the commits cache (line 865). -/
def COMMITS_EXPIRY : Nat := 15 * 60 * 1000

/-- The two `localStorage` slots behind one cache key: the serialized
payload and the sibling `_timestamp` entry. -/
structure Cache (α : Type) where
  data : Option α
  timestamp : Option Nat
deriving DecidableEq

/-- Cache read (lines 943-953 and 869-879): the payload is served only if
both slots exist and `now - storedAt > expiry` is false. -/
def cacheFresh {α : Type} (c : Cache α) (now expiry : Nat) : Option α :=
  match c.data, c.timestamp with
  | some d, some t => if now - t > expiry then none else some d
  | _, _ => none

/-- Outcome of the authenticated repository listing (lines 970-983): the
fetch or its `.json()` threw, or a body was parsed (`ok` from the response
status; `none` when the parsed body is not an array). -/
inductive ListingResp where
  | thrown
  | parsed (ok : Bool) (repos : Option (List Repo))
deriving DecidableEq

/-- Outcome of the unauthenticated fallback listing (lines 1150-1151): the
fetch or its `.json()` threw, or a body was parsed (no ok-check exists on
this path; `none` when not an array). -/
inductive FallbackResp where
  | thrown
  | parsed (repos : Option (List Repo))
deriving DecidableEq

/-- All network outcomes one projects fetch cycle can observe. -/
structure FetchEnv where
  listing : ListingResp
  repoEnv : Nat → RepoEnv
  fallback : FallbackResp

/-- Observable outcome of one projects fetch cycle: the argument of
`setRealProjects` if it was called, the cache state after the cycle, and
whether any network request was issued. -/
structure FetchResult where
  output : Option (List Project)
  cache : Cache (List Project)
  network : Bool
deriving DecidableEq

/-- The relaxed fallback filter (lines 1155-1168): the shorter keyword
list, and nonzero size required. -/
def fallbackKeep (r : Repo) : Bool :=
  let nameL := lowerStr r.name
  let descL := lowerStr (r.description.getD "")
  !(containsSub "awesome-".toList nameL ||
    containsSub "curated".toList nameL ||
    containsSub "list-".toList nameL ||
    containsSub "curated".toList descL ||
    containsSub "collection of".toList descL) && decide (r.size > 0)

/-- The degraded entry built by the fallback path (lines 1170-1184):
`commitCount` is the literal 1, no enrichment. -/
def fallbackProject (r : Repo) : Project :=
  { name := r.name
    description := strOr r.description "No description available"
    tech := [strOr r.language "Code"]
    status := if r.fork then "fork" else "public"
    stars := r.stargazers_count
    forks := r.forks_count
    updated := r.updated_at
    commitCount := 1
    url := r.html_url
    language := strOr r.language "Code"
    size := r.size
    createdAt := r.created_at
    pushedAt := pushedOr r.pushed_at r.updated_at }

/-- The fallback list: filter, first 10, map (lines 1154-1184). -/
def fallbackProjects (rs : List Repo) : List Project :=
  ((rs.filter fallbackKeep).take 10).map fallbackProject

/-- The catch handler of the primary path (lines 1148-1196): retry the
public listing; on a nonempty array, cache and publish the degraded list;
on anything else, publish nothing and leave the cache alone. -/
def runFallback (fb : FallbackResp) (c : Cache (List Project)) (now : Nat) : FetchResult :=
  match fb with
  | .thrown => { output := none, cache := c, network := true }
  | .parsed none => { output := none, cache := c, network := true }
  | .parsed (some rs) =>
    if rs.length > 0 then
      { output := some (fallbackProjects rs)
        cache := { data := some (fallbackProjects rs), timestamp := some now }
        network := true }
    else { output := none, cache := c, network := true }

/-- Enrich the first 30 listed repositories, sort, truncate to 15
(lines 985-1139). -/
def computeFinal (renv : Nat → RepoEnv) (repos : List Repo) : List Project :=
  (jsSort projLe (enrichFrom renv 0 (repos.take 30))).take 15

/-- The body of the try block after a cache miss (lines 955-1146) together
with its catch handler: a thrown listing goes to the fallback; a parsed
non-ok or non-array body returns early with no publish and no cache write;
a parsed array runs the enrich-sort-cap-cache pipeline. -/
def runListing (env : FetchEnv) (c : Cache (List Project)) (now : Nat) : FetchResult :=
  match env.listing with
  | .thrown => runFallback env.fallback c now
  | .parsed ok orepos =>
    if !ok then { output := none, cache := c, network := true }
    else
      match orepos with
      | none => { output := none, cache := c, network := true }
      | some repos =>
        { output := some (computeFinal env.repoEnv repos)
          cache := { data := some (computeFinal env.repoEnv repos), timestamp := some now }
          network := true }

/-- The projects fetch cycle `fetchGitHubProjects` (lines 936-1201): serve
a fresh cache entry with no network access, else run the listing. -/
def fetchGitHubProjects (env : FetchEnv) (c : Cache (List Project)) (now : Nat) : FetchResult :=
  match cacheFresh c now PROJECTS_EXPIRY with
  | some d => { output := some d, cache := c, network := false }
  | none => runListing env c now

/-! ## The commits fetch cycle `fetchGitHubData` (lines 863-933) -/

/-- A commit object as consumed from the commits endpoint (the fields the
source reads: `sha`, `commit.message`, `commit.author.date`,
`commit.author.name`). -/
structure RawCommit where
  sha : String
  message : String
  date : Nat
  author : String
deriving DecidableEq

/-- A commit-log entry as pushed onto `commitsData` (lines 894-900).  The
hard-coded fallback literals (lines 920-926) carry no `date`, hence the
`Option`. -/
structure CommitEntry where
  sha : String
  message : String
  date : Option Nat
  repo : String
  author : String
deriving DecidableEq

/-- Network outcomes of one commits fetch cycle.  `listing = none` models
every outcome that throws before the per-repository loop completes its
setup (the listing fetch or its `.json()` rejecting, or `.slice` raising
on a non-array body), which lands in the catch with the mock fallback.
`commitsFor i`: `none` when the `i`-th per-repository commits request or
its `.json()` threw (silently skipped); `some none` when it parsed to a
non-array; `some (some l)` when it parsed to an array. -/
structure DataEnv where
  listing : Option (List Repo)
  commitsFor : Nat → Option (Option (List RawCommit))

/-- Observable outcome of one commits fetch cycle. -/
structure DataResult where
  output : List CommitEntry
  cache : Cache (List CommitEntry)
  network : Bool
deriving DecidableEq

/-- First line of a commit message (`message.split('\n')[0]`, line 896). -/
def firstLine (s : String) : String :=
  String.mk (s.toList.takeWhile (fun c => !(c == '\n')))

/-- The entry pushed for one raw commit (lines 894-900):
`sha.substring(0, 7)`, first message line, author date, repo name. -/
def mkCommitEntry (repoName : String) (rc : RawCommit) : CommitEntry :=
  { sha := rc.sha.take 7
    message := firstLine rc.message
    date := some rc.date
    repo := repoName
    author := rc.author }

/-- The per-repository commits loop (lines 886-906) over `repos.slice(0,3)`:
array bodies contribute their mapped entries, everything else is skipped. -/
def collectCommits (cf : Nat → Option (Option (List RawCommit))) :
    Nat → List Repo → List CommitEntry
  | _, [] => []
  | i, r :: rest =>
    (match cf i with
     | some (some l) => l.map (mkCommitEntry r.name)
     | _ => []) ++ collectCommits cf (i + 1) rest

/-- The comparator of line 909 (`b.date - a.date`) as a "may precede"
relation: date descending.  Entries built by the loop always carry a date;
the 0 default is never exercised there. -/
def commitLe (a b : CommitEntry) : Bool :=
  decide (b.date.getD 0 ≤ a.date.getD 0)

/-- The hard-coded mock commits used when the whole cycle throws
(lines 920-926). -/
def fallbackCommits : List CommitEntry :=
  [ { sha := "2f8a9c3", message := "feat: Enhanced terminal UI with advanced animations",
      date := none, repo := "portfolio", author := "Kushagra Sharma" },
    { sha := "1a7b2d4", message := "feat: Added smooth scroll navigation and parallax effects",
      date := none, repo := "portfolio", author := "Kushagra Sharma" },
    { sha := "9e5f1c8", message := "feat: Implemented typewriter animations and terminal windows",
      date := none, repo := "portfolio", author := "Kushagra Sharma" },
    { sha := "4d3a7b2", message := "feat: Created responsive portfolio layout",
      date := none, repo := "portfolio", author := "Kushagra Sharma" },
    { sha := "8c1f5e9", message := "initial: Portfolio foundation with Next.js and Tailwind",
      date := none, repo := "portfolio", author := "Kushagra Sharma" } ]

/-- The commits fetch cycle `fetchGitHubData` (lines 863-933): serve a
fresh cache entry with no network access; else collect, sort by date
descending, keep 5, cache; a thrown cycle publishes the mock list and
leaves the cache alone. -/
def fetchGitHubData (env : DataEnv) (c : Cache (List CommitEntry)) (now : Nat) : DataResult :=
  match cacheFresh c now COMMITS_EXPIRY with
  | some d => { output := d, cache := c, network := false }
  | none =>
    match env.listing with
    | none => { output := fallbackCommits, cache := c, network := true }
    | some repos =>
      let fin := (jsSort commitLe (collectCommits env.commitsFor 0 (repos.take 3))).take 5
      { output := fin, cache := { data := some fin, timestamp := some now }, network := true }

/-! ## The transport retry loop `GitHubAPIClient.fetchWithRetry`
(lines 1613-1639) -/

/-- Outcome of one `fetch` attempt: the promise rejected, or a response
with a status arrived (`body = none` when `.json()` on it rejects,
`some v` when it parses — the JSON value abstracted as a `Nat`). -/
inductive RetryOutcome where
  | netThrow
  | resp (status : Nat) (body : Option Nat)
deriving DecidableEq

/-- JS `Response.ok`: status in the 200-299 range. -/
def statusOk (s : Nat) : Bool :=
  decide (200 ≤ s) && decide (s < 300)

/-- Observable outcome of one `fetchWithRetry` call: the resolved JSON
value (`none` when the call threw to its caller), the backoff sleeps in
order (milliseconds), and how many `fetch` attempts were issued. -/
structure RetryResult where
  result : Option Nat
  sleeps : List Nat
  attempts : Nat
deriving DecidableEq

/-- Prepend a backoff sleep to the record of the remaining attempts. -/
def stepCons (ms : Nat) (r : RetryResult) : RetryResult :=
  { result := r.result, sleeps := ms :: r.sleeps, attempts := r.attempts + 1 }

/-- A final attempt that surfaced a failure. -/
def retryFail : RetryResult :=
  { result := none, sleeps := [], attempts := 1 }

/-- The loop body of `fetchWithRetry` at loop index `i` with `rem`
attempts remaining after this one (the loop keeps `i ≤ retries`, so
`rem = retries - i` and the source's `i < retries` is `rem > 0`, and
`i === retries` is `rem = 0`).  A 403 response sleeps `1000 * (i+1)` and
retries; any other failure — rejected fetch, non-ok status (including a
403 on the final attempt, which falls through to the `!response.ok`
throw), or a body that fails to parse — sleeps `500 * (i+1)` and retries;
with nothing remaining the failure is surfaced. -/
def fwrGo (env : Nat → RetryOutcome) (i : Nat) : Nat → RetryResult
  | 0 =>
    (match env i with
     | .netThrow => retryFail
     | .resp status body =>
       if statusOk status then
         (match body with
          | some v => { result := some v, sleeps := [], attempts := 1 }
          | none => retryFail)
       else retryFail)
  | rem + 1 =>
    (match env i with
     | .netThrow => stepCons (500 * (i + 1)) (fwrGo env (i + 1) rem)
     | .resp status body =>
       if status == 403 then stepCons (1000 * (i + 1)) (fwrGo env (i + 1) rem)
       else if statusOk status then
         (match body with
          | some v => { result := some v, sleeps := [], attempts := 1 }
          | none => stepCons (500 * (i + 1)) (fwrGo env (i + 1) rem))
       else stepCons (500 * (i + 1)) (fwrGo env (i + 1) rem))

/-- The call `fetchWithRetry(url, retries)` (lines 1613-1639), with attempt `i`
observing outcome `env i`. -/
def fetchWithRetry (env : Nat → RetryOutcome) (retries : Nat) : RetryResult :=
  fwrGo env 0 retries

/-- Whether an attempt outcome is a 403 rate-limit response. -/
def attempt403 : RetryOutcome → Bool
  | .netThrow => false
  | .resp s _ => s == 403

/-- Whether an attempt outcome resolves the call: an ok response with a
parseable body. -/
def attemptSucceeds : RetryOutcome → Bool
  | .resp s (some _) => statusOk s
  | _ => false

/-- The backoff slept after a failed attempt `i` (0-based): `1000*(i+1)`
for a 403 response, `500*(i+1)` for every other failure. -/
def sleepFor (o : RetryOutcome) (i : Nat) : Nat :=
  if attempt403 o = true then 1000 * (i + 1) else 500 * (i + 1)

/-! ## The contact relay `POST` (src/app/api/contact/route.ts) -/

/-- The destructured JSON body `{name, email, message}`; absent fields are
`none`. -/
structure ContactBody where
  name : Option String
  email : Option String
  message : Option String
deriving DecidableEq

/-- Outcome of the upstream Resend call (lines 65-90 of the route):
rejected, or a response with its ok flag and whether its text parses as
JSON. -/
inductive ResendOutcome where
  | netThrow
  | resp (ok : Bool) (parses : Bool)
deriving DecidableEq

/-- Environment of one `POST` invocation: the parsed request body (`none`
when `request.json()` throws), the `RESEND_API_KEY` setting, and the
upstream outcome. -/
structure ContactEnv where
  body : Option ContactBody
  resendApiKey : Option String
  resend : ResendOutcome
deriving DecidableEq

/-- A JSON response body: an `{error: ...}` or a `{message: ...}` object. -/
inductive RespBody where
  | err (s : String)
  | msg (s : String)
deriving DecidableEq

/-- An HTTP response of the route. -/
structure ContactResponse where
  status : Nat
  body : RespBody
deriving DecidableEq

/-- Whether a response body is an `{error: ...}` object. -/
def isErrBody : RespBody → Bool
  | .err _ => true
  | .msg _ => false

/-- Whether a response body is a `{message: ...}` object. -/
def isMsgBody : RespBody → Bool
  | .msg _ => true
  | .err _ => false

/-- Character class `[^\s@]` of the route's email regex (JS `\s`
approximated by `Char.isWhitespace`). -/
def isEmailChar (c : Char) : Bool :=
  !c.isWhitespace && !(c == '@')

/-- Split a character list at its first occurrence of `c`. -/
def splitAtChar (c : Char) : List Char → Option (List Char × List Char)
  | [] => none
  | x :: t =>
    if x == c then some ([], t)
    else (splitAtChar c t).map (fun p => (x :: p.1, p.2))

/-- Whether a `'.'` occurs with at least one character before and after it. -/
def hasInteriorDot (d : List Char) : Bool :=
  (List.range d.length).any (fun k =>
    d.getD k ' ' == '.' && decide (0 < k) && decide (k + 1 < d.length))

/-- The test of `/^[^\s@]+@[^\s@]+\.[^\s@]+$/` (line 19 of the route): a
matching string is a nonempty `[^\s@]` run, one `@`, and a domain of
`[^\s@]` characters containing an interior dot. -/
def emailRegexTest (s : String) : Bool :=
  match splitAtChar '@' s.toList with
  | none => false
  | some (loc, dom) =>
    !loc.isEmpty && loc.all isEmailChar && dom.all isEmailChar && hasInteriorDot dom

/-- The `POST` handler of `src/app/api/contact/route.ts`: field-presence
validation, email-shape validation, then either the credential-less log
path or the upstream relay, every throw landing in the 500 catch.  The
catch error text depends on the throw site; the literals below stand for
the corresponding `error.message` values. -/
def contactPOST (env : ContactEnv) : ContactResponse :=
  match env.body with
  | none => { status := 500, body := .err "Unexpected token" }
  | some b =>
    if !(strTruthy b.name && strTruthy b.email && strTruthy b.message) then
      { status := 400, body := .err "Missing required fields" }
    else if !(emailRegexTest (b.email.getD "")) then
      { status := 400, body := .err "Invalid email format" }
    else
      match env.resendApiKey with
      | none => { status := 200, body := .msg "Message received! I\x27ll get back to you soon." }
      | some _ =>
        match env.resend with
        | .netThrow => { status := 500, body := .err "fetch failed" }
        | .resp ok parses =>
          if !ok then { status := 500, body := .err "Resend API error" }
          else if !parses then { status := 500, body := .err "Invalid response from email service" }
          else { status := 200, body := .msg "Message sent successfully! I\x27ll get back to you soon." }

/-! ## Concrete instances used by witnesses and counterexamples -/

/-- An empty cache: neither slot populated. -/
def emptyCache {α : Type} : Cache α :=
  { data := none, timestamp := none }

/-- A per-repository environment in which every endpoint throws. -/
def quietREnv : RepoEnv :=
  { contributors := .thrown, commitsPage := .thrown, allCommits := .thrown,
    languages := .thrown, unexpectedThrow := false }

/-- A plain, non-excluded public repository with nonzero size. -/
def plainRepo : Repo :=
  { name := "demo", description := none, size := 5, isPrivate := false,
    fork := false, stargazers_count := 0, forks_count := 0, language := none,
    html_url := "", updated_at := 0, pushed_at := some 0, created_at := 0 }

/-- C1: the listing response is well-formed but non-ok, while the fallback
endpoint stands ready to deliver a usable repository. -/
def c1Env : FetchEnv :=
  { listing := .parsed false (some []), repoEnv := fun _ => quietREnv,
    fallback := .parsed (some [plainRepo]) }

/-- C1 witness: the listing fetch throws and the fallback succeeds. -/
def c1ThrownEnv : FetchEnv :=
  { listing := .thrown, repoEnv := fun _ => quietREnv,
    fallback := .parsed (some [plainRepo]) }

/-- C2: an arbitrary cached project entry. -/
def c2Proj : Project :=
  { name := "cached", description := "d", tech := ["Go"], status := "public",
    stars := 1, forks := 0, updated := 0, commitCount := 3, url := "",
    language := "Go", size := 1, createdAt := 0, pushedAt := 0 }

/-- C2: a projects cache written at time 0. -/
def c2ProjCache : Cache (List Project) :=
  { data := some [c2Proj], timestamp := some 0 }

/-- C2: an arbitrary cached commit entry. -/
def c2Entry : CommitEntry :=
  { sha := "abc1234", message := "m", date := some 0, repo := "demo", author := "a" }

/-- C2: a commits cache written at time 0. -/
def c2CommitsCache : Cache (List CommitEntry) :=
  { data := some [c2Entry], timestamp := some 0 }

/-- C2: a projects environment whose network would fail outright. -/
def c2FetchEnv : FetchEnv :=
  { listing := .thrown, repoEnv := fun _ => quietREnv, fallback := .thrown }

/-- C2: a commits environment whose network would fail outright. -/
def c2DataEnv : DataEnv :=
  { listing := none, commitsFor := fun _ => none }

/-- C3 witness: a successful listing with no repositories. -/
def c3Env : FetchEnv :=
  { listing := .parsed true (some []), repoEnv := fun _ => quietREnv,
    fallback := .thrown }

/-- C4 witness: contributors succeed with an empty list, and the
pagination link header reports 42 pages. -/
def c4REnv : RepoEnv :=
  { contributors := .okArray [], commitsPage := .okLinkMatch 42,
    allCommits := .thrown, languages := .thrown, unexpectedThrow := false }

/-- C5: a private, size-0 repository. -/
def c5Repo : Repo :=
  { name := "wip", description := none, size := 0, isPrivate := true,
    fork := false, stargazers_count := 0, forks_count := 0, language := none,
    html_url := "", updated_at := 0, pushed_at := some 0, created_at := 0 }

/-- C5: every commit-count method completes and resolves 0 (contributors
`[]`, pagination with no link header, full list an empty array). -/
def c5REnv : RepoEnv :=
  { contributors := .okArray [], commitsPage := .okNoLink,
    allCommits := .okArray 0, languages := .thrown, unexpectedThrow := false }

/-- C5: a fetch cycle listing exactly the private repository. -/
def c5Env : FetchEnv :=
  { listing := .parsed true (some [c5Repo]), repoEnv := fun _ => c5REnv,
    fallback := .thrown }

/-- C5: the entry `fetchGitHubProjects` produces for `c5Repo`: included,
with `commitCount` 0. -/
def c5Proj : Project :=
  { name := "wip", description := "No description available", tech := ["Code"],
    status := "private", stars := 0, forks := 0, updated := 0, commitCount := 0,
    url := "", language := "Code", size := 0, createdAt := 0, pushedAt := 0 }

/-- C7 witness: an environment whose contributors listing reports one
commit, qualifying every processed repository. -/
def c7REnv : RepoEnv :=
  { contributors := .okArray [1], commitsPage := .thrown,
    allCommits := .thrown, languages := .thrown, unexpectedThrow := false }

/-- C7 witness: a listing of 16 qualifying repositories. -/
def c7Env : FetchEnv :=
  { listing := .parsed true (some (List.replicate 16 plainRepo)),
    repoEnv := fun _ => c7REnv, fallback := .thrown }

/-- C8 witness: the first attempt is rate-limited, the second succeeds. -/
def c8Env : Nat → RetryOutcome :=
  fun i => if i == 0 then .resp 403 none else .resp 200 (some 7)

/-- C8 counterexample: the projects listing answers with a well-formed
non-ok response — the shape a 403 rate-limit reply takes there (its JSON
error body parses, then the ok-check fires) — while the fallback stands
ready to succeed if anything were retried. -/
def c8ListingEnv : FetchEnv :=
  { listing := .parsed false (some []), repoEnv := fun _ => quietREnv,
    fallback := .parsed (some [plainRepo]) }

/-- C9 witness: a body with the name missing. -/
def c9MissingEnv : ContactEnv :=
  { body := some { name := none, email := some "a@b.c", message := some "hi" },
    resendApiKey := none, resend := .netThrow }

/-- C10 witness: primary listing throws, fallback delivers one repo. -/
def c10Env : FetchEnv :=
  { listing := .thrown, repoEnv := fun _ => quietREnv,
    fallback := .parsed (some [plainRepo]) }

/-! ## Helper lemmas: the insertion-sort model of `Array.prototype.sort` -/

theorem jsInsert_cons_pos {α : Type} {le : α → α → Bool} {a b : α} {t : List α}
    (h : le b a = true) : jsInsert le a (b :: t) = b :: jsInsert le a t := by
  simp [jsInsert, h]

theorem jsInsert_cons_neg {α : Type} {le : α → α → Bool} {a b : α} {t : List α}
    (h : ¬ le b a = true) : jsInsert le a (b :: t) = a :: b :: t := by
  simp [jsInsert, h]

theorem jsInsert_mem {α : Type} (le : α → α → Bool) (a x : α) :
    ∀ l : List α, x ∈ jsInsert le a l ↔ x = a ∨ x ∈ l := by
  intro l
  induction l with
  | nil => simp [jsInsert]
  | cons b t ih =>
    by_cases h : le b a = true
    · rw [jsInsert_cons_pos h]
      simp only [List.mem_cons, ih]
      tauto
    · rw [jsInsert_cons_neg h]
      simp only [List.mem_cons]

theorem jsInsert_length {α : Type} (le : α → α → Bool) (a : α) :
    ∀ l : List α, (jsInsert le a l).length = l.length + 1 := by
  intro l
  induction l with
  | nil => rfl
  | cons b t ih =>
    by_cases h : le b a = true
    · rw [jsInsert_cons_pos h]
      simp [ih]
    · rw [jsInsert_cons_neg h]
      simp

theorem jsSort_length {α : Type} (le : α → α → Bool) :
    ∀ l : List α, (jsSort le l).length = l.length := by
  intro l
  induction l with
  | nil => rfl
  | cons a t ih => simp [jsSort, jsInsert_length, ih]

theorem jsInsert_pairwise {α : Type} (le : α → α → Bool)
    (htot : ∀ x y, le x y = true ∨ le y x = true)
    (htrans : ∀ x y z, le x y = true → le y z = true → le x z = true)
    (a : α) :
    ∀ l : List α, l.Pairwise (fun x y => le x y = true) →
      (jsInsert le a l).Pairwise (fun x y => le x y = true) := by
  intro l
  induction l with
  | nil =>
    intro _
    simp [jsInsert]
  | cons b t ih =>
    intro hp
    rw [List.pairwise_cons] at hp
    obtain ⟨hb, ht⟩ := hp
    by_cases h : le b a = true
    · rw [jsInsert_cons_pos h, List.pairwise_cons]
      refine ⟨?_, ih ht⟩
      intro x hx
      rcases (jsInsert_mem le a x t).1 hx with rfl | hxt
      · exact h
      · exact hb x hxt
    · have hab : le a b = true := (htot a b).resolve_right h
      rw [jsInsert_cons_neg h, List.pairwise_cons]
      refine ⟨?_, ?_⟩
      · intro x hx
        rcases List.mem_cons.1 hx with rfl | hxt
        · exact hab
        · exact htrans a b x hab (hb x hxt)
      · rw [List.pairwise_cons]
        exact ⟨hb, ht⟩

theorem jsSort_pairwise {α : Type} (le : α → α → Bool)
    (htot : ∀ x y, le x y = true ∨ le y x = true)
    (htrans : ∀ x y z, le x y = true → le y z = true → le x z = true) :
    ∀ l : List α, (jsSort le l).Pairwise (fun x y => le x y = true) := by
  intro l
  induction l with
  | nil => simp [jsSort]
  | cons a t ih => exact jsInsert_pairwise le htot htrans a _ ih

theorem projLe_total : ∀ a b : Project, projLe a b = true ∨ projLe b a = true := by
  intro a b
  by_cases h : a.pushedAt = b.pushedAt
  · simp only [projLe, h, beq_self_eq_true, if_true, decide_eq_true_eq]
    omega
  · have h2 : ¬ b.pushedAt = a.pushedAt := fun hh => h hh.symm
    simp [projLe, h, h2]

theorem projLe_trans :
    ∀ a b c : Project, projLe a b = true → projLe b c = true → projLe a c = true := by
  intro a b c hab hbc
  by_cases h1 : a.pushedAt = b.pushedAt <;>
    by_cases h2 : b.pushedAt = c.pushedAt <;>
      by_cases h3 : a.pushedAt = c.pushedAt <;>
        simp_all [projLe, beq_iff_eq] <;> omega

/-! ## Helper lemmas: cache reads and the cycle's branch structure -/

theorem cacheFresh_some {α : Type} {c : Cache α} {d : α} {t now e : Nat}
    (hd : c.data = some d) (ht : c.timestamp = some t) (h : now - t ≤ e) :
    cacheFresh c now e = some d := by
  simp [cacheFresh, hd, ht, Nat.not_lt.2 h]

theorem cacheFresh_expired {α : Type} {c : Cache α} {d : α} {t now e : Nat}
    (hd : c.data = some d) (ht : c.timestamp = some t) (h : now - t > e) :
    cacheFresh c now e = none := by
  simp [cacheFresh, hd, ht, h]

theorem fetch_hit {env : FetchEnv} {c : Cache (List Project)} {now : Nat}
    {d : List Project} (h : cacheFresh c now PROJECTS_EXPIRY = some d) :
    fetchGitHubProjects env c now = { output := some d, cache := c, network := false } := by
  simp [fetchGitHubProjects, h]

theorem fetch_miss {env : FetchEnv} {c : Cache (List Project)} {now : Nat}
    (h : cacheFresh c now PROJECTS_EXPIRY = none) :
    fetchGitHubProjects env c now = runListing env c now := by
  simp [fetchGitHubProjects, h]

theorem runListing_network (env : FetchEnv) (c : Cache (List Project)) (now : Nat) :
    (runListing env c now).network = true := by
  rcases hl : env.listing with _ | ⟨ok, orepos⟩
  · rcases hf : env.fallback with _ | o
    · simp [runListing, runFallback, hl, hf]
    · rcases o with _ | rs
      · simp [runListing, runFallback, hl, hf]
      · by_cases hlen : rs.length > 0 <;> simp [runListing, runFallback, hl, hf, hlen]
  · rcases ok with _ | _
    · simp [runListing, hl]
    · rcases orepos with _ | repos <;> simp [runListing, hl]

theorem runListing_cases (env : FetchEnv) (c : Cache (List Project)) (now : Nat) :
    ((runListing env c now).cache = c ∧ (runListing env c now).output = none) ∨
    ∃ l, runListing env c now =
      { output := some l, cache := { data := some l, timestamp := some now }, network := true } := by
  rcases hl : env.listing with _ | ⟨ok, orepos⟩
  · rcases hf : env.fallback with _ | o
    · left; simp [runListing, runFallback, hl, hf]
    · rcases o with _ | rs
      · left; simp [runListing, runFallback, hl, hf]
      · by_cases hlen : rs.length > 0
        · right
          exact ⟨fallbackProjects rs, by simp [runListing, runFallback, hl, hf, hlen]⟩
        · left; simp [runListing, runFallback, hl, hf, hlen]
  · rcases ok with _ | _
    · left; simp [runListing, hl]
    · rcases orepos with _ | repos
      · left; simp [runListing, hl]
      · right
        exact ⟨computeFinal env.repoEnv repos, by simp [runListing, hl]⟩

theorem fallbackProjects_length_le (rs : List Repo) :
    (fallbackProjects rs).length ≤ 10 := by
  simp only [fallbackProjects, List.length_map]
  exact List.length_take_le 10 _

theorem fallbackProjects_commitCount (rs : List Repo) :
    ∀ p ∈ fallbackProjects rs, p.commitCount = 1 := by
  intro p hp
  simp only [fallbackProjects, List.mem_map] at hp
  obtain ⟨r, _, rfl⟩ := hp
  rfl

theorem data_hit {denv : DataEnv} {cc : Cache (List CommitEntry)} {now : Nat}
    {d : List CommitEntry} (h : cacheFresh cc now COMMITS_EXPIRY = some d) :
    fetchGitHubData denv cc now = { output := d, cache := cc, network := false } := by
  simp [fetchGitHubData, h]

theorem data_miss_network {denv : DataEnv} {cc : Cache (List CommitEntry)} {now : Nat}
    (h : cacheFresh cc now COMMITS_EXPIRY = none) :
    (fetchGitHubData denv cc now).network = true := by
  rcases hl : denv.listing with _ | repos <;> simp [fetchGitHubData, h, hl]

/-! ## Claim C1 -/

/-- Claim C1, counterexample: with an empty cache, a well-formed but
non-ok repository-list response, and a fallback environment that would
deliver a nonempty degraded list if consulted, `fetchGitHubProjects`
publishes nothing and leaves the cache untouched — the unauthenticated
fallback is not retried on this path (it is reached only from a thrown
listing), refuting the claim's "including when the repository-list HTTP
response is well-formed but non-ok". -/
theorem c1_counterexample :
    fetchGitHubProjects c1Env emptyCache 0 =
      { output := none, cache := emptyCache, network := true } ∧
    fallbackProjects [plainRepo] ≠ [] := by decide

/-- Claim C1, amended: on a cache miss, a listing fetch (or body parse)
that throws is retried through the unauthenticated fallback — a nonempty
parsed fallback array yields the degraded list (every `commitCount` 1, at
most 10 entries, no enrichment) and a cache write, and any other fallback
outcome publishes nothing, so the operation still never throws; a
well-formed but non-ok (or non-array) listing response instead returns
early with no fallback attempt, no publish, and no cache write. -/
theorem c1_error_containment :
    ∀ (env : FetchEnv) (c : Cache (List Project)) (now : Nat),
      cacheFresh c now PROJECTS_EXPIRY = none →
      ((env.listing = .thrown →
          (∃ rs, env.fallback = .parsed (some rs) ∧ rs.length > 0 ∧
            fetchGitHubProjects env c now =
              { output := some (fallbackProjects rs),
                cache := { data := some (fallbackProjects rs), timestamp := some now },
                network := true }) ∨
          fetchGitHubProjects env c now =
            { output := none, cache := c, network := true }) ∧
       (∀ b, env.listing = .parsed false b →
          fetchGitHubProjects env c now =
            { output := none, cache := c, network := true }) ∧
       (∀ rs, (fallbackProjects rs).length ≤ 10 ∧
          ∀ p ∈ fallbackProjects rs, p.commitCount = 1)) := by
  intro env c now hmiss
  refine ⟨?_, ?_, ?_⟩
  · intro hthrown
    rw [fetch_miss hmiss]
    rcases hf : env.fallback with _ | o
    · right
      simp [runListing, runFallback, hthrown, hf]
    · rcases o with _ | rs
      · right
        simp [runListing, runFallback, hthrown, hf]
      · by_cases hlen : rs.length > 0
        · left
          exact ⟨rs, rfl, hlen, by simp [runListing, runFallback, hthrown, hf, hlen]⟩
        · right
          simp [runListing, runFallback, hthrown, hf, hlen]
  · intro b hb
    rw [fetch_miss hmiss]
    simp [runListing, hb]
  · intro rs
    exact ⟨fallbackProjects_length_le rs, fallbackProjects_commitCount rs⟩

/-- Claim C1, witness: a thrown listing with a one-repository fallback,
run through `c1_error_containment`. -/
theorem c1_witness :
    fetchGitHubProjects c1ThrownEnv emptyCache 0 =
      { output := some (fallbackProjects [plainRepo]),
        cache := { data := some (fallbackProjects [plainRepo]), timestamp := some 0 },
        network := true } := by
  rcases (c1_error_containment c1ThrownEnv emptyCache 0 (by decide)).1 rfl with
    ⟨rs, hrs, _, heq⟩ | habs
  · have hr : [plainRepo] = rs := by
      simpa [c1ThrownEnv] using hrs
    rw [← hr] at heq
    exact heq
  · exact absurd habs (by decide)

/-! ## Claim C2 -/

/-- Claim C2, counterexample: a cache entry whose age is exactly the
expiry window (projects: 30 minutes; commits: 15 minutes) is served as a
hit — the payload is returned with no network access — because the source
treats an entry as expired only when `now - storedAt` is strictly greater
than the window.  This refutes "age exactly equal to the expiry window is
a miss". -/
theorem c2_counterexample :
    fetchGitHubProjects c2FetchEnv c2ProjCache PROJECTS_EXPIRY =
      { output := some [c2Proj], cache := c2ProjCache, network := false } ∧
    fetchGitHubData c2DataEnv c2CommitsCache COMMITS_EXPIRY =
      { output := [c2Entry], cache := c2CommitsCache, network := false } := by decide

/-- Claim C2, amended: a cache entry is treated as a miss exactly when its
age strictly exceeds the expiry window (30 minutes for projects, 15 for
commits): a strictly older entry forces network access, while an entry of
age less than or equal to the window is returned as-is with no network
access. -/
theorem c2_expiry_strict :
    ∀ (c : Cache (List Project)) (cc : Cache (List CommitEntry))
      (d : List Project) (dd : List CommitEntry) (t1 t2 now1 now2 : Nat)
      (env : FetchEnv) (denv : DataEnv),
      c.data = some d → c.timestamp = some t1 →
      cc.data = some dd → cc.timestamp = some t2 →
      ((now1 - t1 > PROJECTS_EXPIRY → (fetchGitHubProjects env c now1).network = true) ∧
       (now1 - t1 ≤ PROJECTS_EXPIRY →
         fetchGitHubProjects env c now1 = { output := some d, cache := c, network := false }) ∧
       (now2 - t2 > COMMITS_EXPIRY → (fetchGitHubData denv cc now2).network = true) ∧
       (now2 - t2 ≤ COMMITS_EXPIRY →
         fetchGitHubData denv cc now2 = { output := dd, cache := cc, network := false })) := by
  intro c cc d dd t1 t2 now1 now2 env denv hd ht1 hdd ht2
  refine ⟨?_, ?_, ?_, ?_⟩
  · intro h
    rw [fetch_miss (cacheFresh_expired hd ht1 h)]
    exact runListing_network env c now1
  · intro h
    exact fetch_hit (cacheFresh_some hd ht1 h)
  · intro h
    exact data_miss_network (cacheFresh_expired hdd ht2 h)
  · intro h
    exact data_hit (cacheFresh_some hdd ht2 h)

/-- Claim C2, witness: caches written at time 0, read at times 3 and 5,
run through `c2_expiry_strict`. -/
theorem c2_witness :
    fetchGitHubProjects c2FetchEnv c2ProjCache 3 =
      { output := some [c2Proj], cache := c2ProjCache, network := false } ∧
    fetchGitHubData c2DataEnv c2CommitsCache 5 =
      { output := [c2Entry], cache := c2CommitsCache, network := false } := by
  have h := c2_expiry_strict c2ProjCache c2CommitsCache [c2Proj] [c2Entry] 0 0 3 5
    c2FetchEnv c2DataEnv rfl rfl rfl rfl
  exact ⟨h.2.1 (by decide), h.2.2.2 (by decide)⟩

/-! ## Claim C3 -/

/-- Claim C3: when a `fetchGitHubProjects` cycle ends with the cache
holding payload `p` at timestamp `t` (a hit leaves the existing entry, a
successful primary or fallback cycle writes its own output), then that
cycle published exactly `p`, and any later cycle still inside the expiry
window — under any network environment — issues no network request and
returns exactly the same payload. -/
theorem c3_idempotence :
    ∀ (env1 env2 : FetchEnv) (c : Cache (List Project)) (now1 now2 : Nat)
      (p : List Project) (t : Nat),
      (fetchGitHubProjects env1 c now1).cache = { data := some p, timestamp := some t } →
      now1 ≤ now2 → now2 - t ≤ PROJECTS_EXPIRY →
      (fetchGitHubProjects env1 c now1).output = some p ∧
      fetchGitHubProjects env2 (fetchGitHubProjects env1 c now1).cache now2 =
        { output := some p, cache := { data := some p, timestamp := some t },
          network := false } := by
  intro env1 env2 c now1 now2 p t hcache h12 hfresh
  rcases hm : cacheFresh c now1 PROJECTS_EXPIRY with _ | d
  · rw [fetch_miss hm] at hcache ⊢
    rcases runListing_cases env1 c now1 with ⟨hc, hout⟩ | ⟨l, heq⟩
    · exfalso
      rw [hc] at hcache
      have hd : c.data = some p := by rw [hcache]
      have ht : c.timestamp = some t := by rw [hcache]
      by_cases hexp : now1 - t ≤ PROJECTS_EXPIRY
      · rw [cacheFresh_some hd ht hexp] at hm
        cases hm
      · have hsub : now1 - t ≤ now2 - t := Nat.sub_le_sub_right h12 t
        omega
    · rw [heq] at hcache ⊢
      simp only [Cache.mk.injEq, Option.some.injEq] at hcache
      obtain ⟨rfl, rfl⟩ := hcache
      refine ⟨rfl, ?_⟩
      exact fetch_hit (cacheFresh_some rfl rfl hfresh)
  · rw [fetch_hit hm] at hcache ⊢
    have hc : c = { data := some p, timestamp := some t } := hcache
    subst hc
    have hdp : d = p := by
      by_cases hexp : now1 - t > PROJECTS_EXPIRY
      · rw [cacheFresh_expired rfl rfl hexp] at hm
        cases hm
      · rw [cacheFresh_some rfl rfl (Nat.not_lt.1 hexp)] at hm
        exact (Option.some.injEq _ _ ▸ hm).symm
    subst hdp
    refine ⟨rfl, ?_⟩
    exact fetch_hit (cacheFresh_some rfl rfl hfresh)

/-- Claim C3, witness: a successful empty listing at time 0 followed by a
second cycle at time 1, run through `c3_idempotence`. -/
theorem c3_witness :
    (fetchGitHubProjects c3Env emptyCache 0).output = some [] ∧
    fetchGitHubProjects c3Env (fetchGitHubProjects c3Env emptyCache 0).cache 1 =
      { output := some [], cache := { data := some [], timestamp := some 0 },
        network := false } :=
  c3_idempotence c3Env c3Env emptyCache 0 1 [] 0 (by decide) (by decide) (by decide)

/-! ## Claim C4 -/

/-- Claim C4: when the contributors listing succeeds but sums to zero
commits (e.g. an empty array), the commit count is produced by the
commits-pagination method: a matching link header's last-page number is
used verbatim, and the value 1 can arise only from that method itself
(a thrown pagination request, a last page of 1, or the no-link-header
full-list path) — never as a direct default that bypasses it.  Moreover
the count so computed is exactly the `commitCount` of the emitted
project entry. -/
theorem c4_pagination_fallback :
    ∀ (e : RepoEnv) (l : List Nat) (r : Repo),
      e.contributors = .okArray l → l.foldl (· + ·) 0 = 0 →
      ((∀ n, e.commitsPage = .okLinkMatch n → computeCommitCount e = n) ∧
       (computeCommitCount e = 1 →
          e.commitsPage = .thrown ∨ e.commitsPage = .okLinkMatch 1 ∨
          (e.commitsPage = .okNoLink ∧
            (e.allCommits = .thrown ∨ e.allCommits = .okNonArray ∨
             e.allCommits = .okArray 1))) ∧
       (isLikelyStarred r = false → e.unexpectedThrow = false →
          ∀ pj, processRepo r e = some pj → pj.commitCount = computeCommitCount e)) := by
  intro e l r hc hsum
  refine ⟨?_, ?_, ?_⟩
  · intro n h
    simp [computeCommitCount, hc, hsum, h]
  · intro h1
    rcases hcp : e.commitsPage with _ | _ | n | _ | _
    · exact Or.inl rfl
    · simp [computeCommitCount, hc, hsum, hcp] at h1
    · simp [computeCommitCount, hc, hsum, hcp] at h1
      exact Or.inr (Or.inl (by rw [h1]))
    · simp [computeCommitCount, hc, hsum, hcp] at h1
    · rcases hac : e.allCommits with _ | _ | _ | len
      · exact Or.inr (Or.inr ⟨rfl, Or.inl rfl⟩)
      · simp [computeCommitCount, hc, hsum, hcp, hac] at h1
      · exact Or.inr (Or.inr ⟨rfl, Or.inr (Or.inl rfl)⟩)
      · simp [computeCommitCount, hc, hsum, hcp, hac] at h1
        exact Or.inr (Or.inr ⟨rfl, Or.inr (Or.inr (by rw [h1]))⟩)
  · intro hstar hthrow pj hpj
    simp only [processRepo, hstar, hthrow, Bool.false_eq_true, if_false] at hpj
    split at hpj
    · cases hpj
      rfl
    · cases hpj

/-- Claim C4, witness: empty contributors with a 42-page link header, run
through `c4_pagination_fallback`. -/
theorem c4_witness : computeCommitCount c4REnv = 42 :=
  (c4_pagination_fallback c4REnv [] plainRepo rfl rfl).1 42 rfl

/-! ## Claim C5 -/

/-- Claim C5, counterexample: a private, size-0 repository whose commit
count resolves to 0 through every method (contributors `[]`, pagination
with no link header, full commit list an empty array) is included in the
output — but with `commitCount` 0, not the claimed default of 1. -/
theorem c5_counterexample :
    fetchGitHubProjects c5Env emptyCache 0 =
      { output := some [c5Proj],
        cache := { data := some [c5Proj], timestamp := some 0 },
        network := true } ∧
    c5Proj.commitCount = 0 ∧ ¬ c5Proj.commitCount = 1 := by decide

/-- Claim C5, amended: a non-excluded private repository is always kept in
the result set (the inclusion gate is `commitCount > 0 || repo.private`),
but when every enrichment method completes and resolves 0 its output
`commitCount` is that resolved 0; the default of 1 for a private
repository applies only on the per-repository error path (an unexpected
throw reaching the catch handler). -/
theorem c5_private_inclusion :
    ∀ (r : Repo) (e : RepoEnv),
      r.isPrivate = true → isLikelyStarred r = false →
      ((e.unexpectedThrow = false → computeCommitCount e = 0 →
         (processRepo r e).map (fun pj => pj.commitCount) = some 0) ∧
       (e.unexpectedThrow = true →
         (processRepo r e).map (fun pj => pj.commitCount) = some 1)) := by
  intro r e hpriv hstar
  constructor
  · intro hthrow hcc
    simp [processRepo, hstar, hthrow, hcc, hpriv, mkProject]
  · intro hthrow
    simp [processRepo, hstar, hthrow, hpriv, mkProject]

/-- Claim C5, witness: the private size-0 repository with all-resolved-0
enrichment, run through `c5_private_inclusion`. -/
theorem c5_witness :
    (processRepo c5Repo c5REnv).map (fun pj => pj.commitCount) = some 0 :=
  (c5_private_inclusion c5Repo c5REnv rfl (by decide)).1 rfl (by decide)

/-! ## Claim C6 -/

/-- Claim C6: the enriched, capped result list of a fresh projects cycle
is ordered by `pushedAt` descending, with ties broken by `commitCount`
descending: every entry is followed only by entries that were pushed
strictly earlier, or pushed at the same instant with a commit count no
larger. -/
theorem c6_sorted :
    ∀ (renv : Nat → RepoEnv) (repos : List Repo),
      (computeFinal renv repos).Pairwise
        (fun a b => b.pushedAt < a.pushedAt ∨
          (a.pushedAt = b.pushedAt ∧ b.commitCount ≤ a.commitCount)) := by
  intro renv repos
  have hs := jsSort_pairwise projLe projLe_total projLe_trans
    (enrichFrom renv 0 (repos.take 30))
  have himp : ∀ x y : Project, projLe x y = true →
      (y.pushedAt < x.pushedAt ∨
        (x.pushedAt = y.pushedAt ∧ y.commitCount ≤ x.commitCount)) := by
    intro x y h
    by_cases he : x.pushedAt = y.pushedAt
    · refine Or.inr ⟨he, ?_⟩
      simpa [projLe, he] using h
    · refine Or.inl ?_
      simpa [projLe, he] using h
  have hsorted := List.Pairwise.imp (fun {a b} h => himp a b h) hs
  exact List.Pairwise.sublist (List.take_sublist 15 _) hsorted

/-! ## Claim C7 -/

/-- Claim C7: whenever at least 15 entries survive filtering and the
inclusion gate among the first 30 listed repositories, a fresh
`fetchGitHubProjects` cycle publishes exactly 15 entries — the sorted
list truncated to its first 15. -/
theorem c7_cap :
    ∀ (env : FetchEnv) (c : Cache (List Project)) (now : Nat) (repos : List Repo),
      cacheFresh c now PROJECTS_EXPIRY = none →
      env.listing = .parsed true (some repos) →
      15 ≤ (enrichFrom env.repoEnv 0 (repos.take 30)).length →
      (fetchGitHubProjects env c now).output = some (computeFinal env.repoEnv repos) ∧
      (computeFinal env.repoEnv repos).length = 15 := by
  intro env c now repos hmiss hl hqual
  constructor
  · rw [fetch_miss hmiss]
    simp [runListing, hl]
  · simp only [computeFinal, List.length_take, jsSort_length]
    omega

/-- Claim C7, witness: a listing of 16 qualifying repositories capped to
15, run through `c7_cap`. -/
theorem c7_witness :
    (fetchGitHubProjects c7Env emptyCache 0).output =
      some (computeFinal c7Env.repoEnv (List.replicate 16 plainRepo)) ∧
    (computeFinal c7Env.repoEnv (List.replicate 16 plainRepo)).length = 15 :=
  c7_cap c7Env emptyCache 0 (List.replicate 16 plainRepo) (by decide) rfl (by decide)

/-! ## Claim C8 -/

theorem attemptSucceeds_iff (o : RetryOutcome) :
    attemptSucceeds o = true ↔ ∃ s v, o = .resp s (some v) ∧ statusOk s = true := by
  rcases o with _ | ⟨s, b⟩
  · simp [attemptSucceeds]
  · rcases b with _ | v <;> simp [attemptSucceeds]

theorem fwrGo_fail_zero (env : Nat → RetryOutcome) (i : Nat)
    (h : attemptSucceeds (env i) = false) : fwrGo env i 0 = retryFail := by
  rcases he : env i with _ | ⟨s, b⟩
  · simp [fwrGo, he]
  · rcases b with _ | v
    · by_cases hok : statusOk s = true <;> simp [fwrGo, he, hok]
    · have hok : statusOk s = false := by
        rw [he] at h
        simpa [attemptSucceeds] using h
      simp [fwrGo, he, hok]

theorem fwrGo_fail_succ (env : Nat → RetryOutcome) (i rem : Nat)
    (h : attemptSucceeds (env i) = false) :
    fwrGo env i (rem + 1) = stepCons (sleepFor (env i) i) (fwrGo env (i + 1) rem) := by
  rcases he : env i with _ | ⟨s, b⟩
  · simp [fwrGo, he, sleepFor, attempt403]
  · by_cases h403 : (s == 403) = true
    · simp [fwrGo, he, h403, sleepFor, attempt403]
    · rcases b with _ | v
      · by_cases hok : statusOk s = true <;>
          simp [fwrGo, he, h403, hok, sleepFor, attempt403]
      · have hok : statusOk s = false := by
          rw [he] at h
          simpa [attemptSucceeds] using h
        simp [fwrGo, he, h403, hok, sleepFor, attempt403]

theorem fwrGo_succeed_zero (env : Nat → RetryOutcome) (i : Nat) {s v : Nat}
    (he : env i = .resp s (some v)) (hok : statusOk s = true) :
    fwrGo env i 0 = { result := some v, sleeps := [], attempts := 1 } := by
  simp [fwrGo, he, hok]

theorem fwrGo_succeed_succ (env : Nat → RetryOutcome) (i rem : Nat) {s v : Nat}
    (he : env i = .resp s (some v)) (hok : statusOk s = true) :
    fwrGo env i (rem + 1) = { result := some v, sleeps := [], attempts := 1 } := by
  have h403 : (s == 403) = false := by
    by_cases h : s = 403
    · subst h
      exact absurd hok (by decide)
    · simp [h]
  simp [fwrGo, he, h403, hok]

/-- Claim C8, counterexample: the retry policy does not govern every HTTP
call of the aggregator.  The projects cycle issues its repository-listing
fetch exactly once through plain `fetch`: a well-formed 403 (non-ok)
listing response ends the cycle at the early return — nothing retried, no
backoff, nothing published, even though the fallback environment stood
ready to succeed — whereas the very 403-then-success sequence the claim
describes, fed to `GitHubAPIClient.fetchWithRetry` (used only by the
client-based commits cycle), is retried once after 1000 ms and resolves. -/
theorem c8_counterexample :
    fetchGitHubProjects c8ListingEnv emptyCache 0 =
      { output := none, cache := emptyCache, network := true } ∧
    fetchWithRetry c8Env 2 =
      { result := some 7, sleeps := [1000], attempts := 2 } := by decide

/-- Claim C8, amended: the 403/other-failure retry policy governs exactly
the HTTP calls issued through `GitHubAPIClient.fetchWithRetry` (the
client-based commits cycle): with the default 2 retries such a call
issues at most 3 attempts; after each failed attempt `i` it sleeps
`1000*(i+1)` ms when that attempt returned HTTP 403 and `500*(i+1)` ms on
any other failure; a failure is surfaced to the caller only when all
three attempts failed; and a first attempt answered 403 followed by a
successful attempt resolves to that second attempt's body after a single
~1000 ms backoff.  Every other HTTP call of the aggregator is issued once
with no retry: in particular, a fresh projects cycle whose listing
response is well-formed but non-ok (as a 403 there is) returns early,
unretried, publishing nothing. -/
theorem c8_retry_policy :
    (∀ env : Nat → RetryOutcome,
      (fetchWithRetry env 2).attempts ≤ 3 ∧
      (fetchWithRetry env 2).sleeps =
        (List.range ((fetchWithRetry env 2).attempts - 1)).map
          (fun i => sleepFor (env i) i) ∧
      ((fetchWithRetry env 2).result = none →
        (fetchWithRetry env 2).attempts = 3 ∧
        attemptSucceeds (env 0) = false ∧ attemptSucceeds (env 1) = false ∧
        attemptSucceeds (env 2) = false) ∧
      (∀ s v, attempt403 (env 0) = true → env 1 = .resp s (some v) →
        statusOk s = true →
        fetchWithRetry env 2 = { result := some v, sleeps := [1000], attempts := 2 })) ∧
    (∀ (fe : FetchEnv) (c : Cache (List Project)) (now : Nat) (b : Option (List Repo)),
      cacheFresh c now PROJECTS_EXPIRY = none →
      fe.listing = .parsed false b →
      fetchGitHubProjects fe c now = { output := none, cache := c, network := true }) := by
  refine ⟨?_, ?_⟩
  case refine_2 =>
    intro fe c now b hmiss hb
    rw [fetch_miss hmiss]
    simp [runListing, hb]
  intro env
  by_cases h0 : attemptSucceeds (env 0) = true
  · obtain ⟨s0, v0, he0, hok0⟩ := (attemptSucceeds_iff (env 0)).1 h0
    have hrun : fetchWithRetry env 2 = { result := some v0, sleeps := [], attempts := 1 } :=
      fwrGo_succeed_succ env 0 1 he0 hok0
    refine ⟨?_, ?_, ?_, ?_⟩
    · simp [hrun]
    · simp [hrun]
    · rw [hrun]
      intro h
      simp at h
    · intro s v h403 _ _
      exfalso
      rw [he0] at h403
      simp only [attempt403, beq_iff_eq] at h403
      rw [h403] at hok0
      exact absurd hok0 (by decide)
  · have hf0 : attemptSucceeds (env 0) = false := by simpa using h0
    have hstep0 : fetchWithRetry env 2 = stepCons (sleepFor (env 0) 0) (fwrGo env 1 1) :=
      fwrGo_fail_succ env 0 1 hf0
    by_cases h1 : attemptSucceeds (env 1) = true
    · obtain ⟨s1, v1, he1, hok1⟩ := (attemptSucceeds_iff (env 1)).1 h1
      have hrun : fetchWithRetry env 2 =
          { result := some v1, sleeps := [sleepFor (env 0) 0], attempts := 2 } := by
        rw [hstep0, fwrGo_succeed_succ env 1 0 he1 hok1]
        rfl
      refine ⟨?_, ?_, ?_, ?_⟩
      · simp [hrun]
      · simp [hrun, List.range_succ]
      · rw [hrun]
        intro h
        simp at h
      · intro s v h403 he1' hok'
        have hinj := he1.symm.trans he1'
        simp only [RetryOutcome.resp.injEq, Option.some.injEq] at hinj
        obtain ⟨hs', hv'⟩ := hinj
        subst hv'
        have hsleep : sleepFor (env 0) 0 = 1000 := by
          simp [sleepFor, h403]
        rw [hrun, hsleep]
    · have hf1 : attemptSucceeds (env 1) = false := by simpa using h1
      have hstep1 : fwrGo env 1 1 = stepCons (sleepFor (env 1) 1) (fwrGo env 2 0) :=
        fwrGo_fail_succ env 1 0 hf1
      by_cases h2 : attemptSucceeds (env 2) = true
      · obtain ⟨s2, v2, he2, hok2⟩ := (attemptSucceeds_iff (env 2)).1 h2
        have hrun : fetchWithRetry env 2 =
            { result := some v2, sleeps := [sleepFor (env 0) 0, sleepFor (env 1) 1],
              attempts := 3 } := by
          rw [hstep0, hstep1, fwrGo_succeed_zero env 2 he2 hok2]
          rfl
        refine ⟨?_, ?_, ?_, ?_⟩
        · simp [hrun]
        · simp [hrun, List.range_succ]
        · rw [hrun]
          intro h
          simp at h
        · intro s v h403 he1' hok'
          rw [he1'] at hf1
          simp [attemptSucceeds, hok'] at hf1
      · have hf2 : attemptSucceeds (env 2) = false := by simpa using h2
        have hrun : fetchWithRetry env 2 =
            { result := none, sleeps := [sleepFor (env 0) 0, sleepFor (env 1) 1],
              attempts := 3 } := by
          rw [hstep0, hstep1, fwrGo_fail_zero env 2 hf2]
          rfl
        refine ⟨?_, ?_, ?_, ?_⟩
        · simp [hrun]
        · simp [hrun, List.range_succ]
        · intro _
          refine ⟨?_, hf0, hf1, hf2⟩
          rw [hrun]
        · intro s v h403 he1' hok'
          rw [he1'] at hf1
          simp [attemptSucceeds, hok'] at hf1

/-- Claim C8, witness: a first attempt answered 403 and a second attempt
answered 200 with body 7 resolving through the retry loop, and a fresh
projects cycle ended by a non-ok listing response, both run through
`c8_retry_policy`. -/
theorem c8_witness :
    fetchWithRetry c8Env 2 = { result := some 7, sleeps := [1000], attempts := 2 } ∧
    fetchGitHubProjects c8ListingEnv emptyCache 0 =
      { output := none, cache := emptyCache, network := true } :=
  ⟨(c8_retry_policy.1 c8Env).2.2.2 200 7 (by decide) rfl (by decide),
   c8_retry_policy.2 c8ListingEnv emptyCache 0 (some []) (by decide) rfl⟩

/-! ## Claim C9 -/

/-- Claim C9: the contact relay responds 400 with an error body when a
field is missing (JS-falsy) or the email fails the shape regex; 200 with
a message body when validation passes and the message is logged (no
credential) or relayed successfully; and 500 with an error body when the
upstream email call rejects, returns non-ok, or returns an unparseable
body. -/
theorem c9_contact_contract :
    ∀ (env : ContactEnv) (b : ContactBody),
      env.body = some b →
      (((strTruthy b.name && strTruthy b.email && strTruthy b.message) = false →
         contactPOST env = { status := 400, body := .err "Missing required fields" }) ∧
       (∀ s, b.email = some s →
         (strTruthy b.name && strTruthy b.email && strTruthy b.message) = true →
         emailRegexTest s = false →
         contactPOST env = { status := 400, body := .err "Invalid email format" }) ∧
       (∀ s, b.email = some s →
         (strTruthy b.name && strTruthy b.email && strTruthy b.message) = true →
         emailRegexTest s = true →
         ((env.resendApiKey = none →
            (contactPOST env).status = 200 ∧ isMsgBody (contactPOST env).body = true) ∧
          (∀ k, env.resendApiKey = some k → env.resend = .resp true true →
            (contactPOST env).status = 200 ∧ isMsgBody (contactPOST env).body = true) ∧
          (∀ k, env.resendApiKey = some k → ¬ env.resend = .resp true true →
            (contactPOST env).status = 500 ∧ isErrBody (contactPOST env).body = true)))) := by
  intro env b hb
  refine ⟨?_, ?_, ?_⟩
  · intro hval
    simp [contactPOST, hb, hval]
  · intro s hs hval hreg
    rw [Bool.and_eq_true, Bool.and_eq_true] at hval
    obtain ⟨⟨hn, he⟩, hm⟩ := hval
    rw [hs] at he
    simp [contactPOST, hb, hn, he, hm, hs, hreg]
  · intro s hs hval hreg
    rw [Bool.and_eq_true, Bool.and_eq_true] at hval
    obtain ⟨⟨hn, he⟩, hm⟩ := hval
    rw [hs] at he
    refine ⟨?_, ?_, ?_⟩
    · intro hk
      simp [contactPOST, hb, hn, he, hm, hs, hreg, hk, isMsgBody]
    · intro k hk hr
      simp [contactPOST, hb, hn, he, hm, hs, hreg, hk, hr, isMsgBody]
    · intro k hk hr
      rcases hres : env.resend with _ | ⟨ok, parses⟩
      · simp [contactPOST, hb, hn, he, hm, hs, hreg, hk, hres, isErrBody]
      · rcases ok
        · simp [contactPOST, hb, hn, he, hm, hs, hreg, hk, hres, isErrBody]
        · rcases parses
          · simp [contactPOST, hb, hn, he, hm, hs, hreg, hk, hres, isErrBody]
          · exact absurd hres hr

/-- Claim C9, witness: a body with the name missing rejected as 400, run
through `c9_contact_contract`. -/
theorem c9_witness :
    contactPOST c9MissingEnv = { status := 400, body := .err "Missing required fields" } :=
  (c9_contact_contract c9MissingEnv
    { name := none, email := some "a@b.c", message := some "hi" } rfl).1 (by decide)

/-! ## Claim C10 -/

/-- Claim C10: when the primary listing throws and the unauthenticated
fallback parses a nonempty repository array, the degraded list — at most
10 entries, every `commitCount` equal to 1 — is published and written to
the projects cache entry under the current timestamp, and any later cycle
still inside the 30-minute window returns that same degraded list with no
network access. -/
theorem c10_fallback_cached :
    ∀ (env env2 : FetchEnv) (c : Cache (List Project)) (now1 now2 : Nat) (rs : List Repo),
      cacheFresh c now1 PROJECTS_EXPIRY = none →
      env.listing = .thrown →
      env.fallback = .parsed (some rs) →
      rs.length > 0 →
      ((fetchGitHubProjects env c now1).cache =
        { data := some (fallbackProjects rs), timestamp := some now1 } ∧
       (fetchGitHubProjects env c now1).output = some (fallbackProjects rs) ∧
       (fallbackProjects rs).length ≤ 10 ∧
       (∀ p ∈ fallbackProjects rs, p.commitCount = 1) ∧
       (now2 - now1 ≤ PROJECTS_EXPIRY →
         fetchGitHubProjects env2 (fetchGitHubProjects env c now1).cache now2 =
           { output := some (fallbackProjects rs),
             cache := { data := some (fallbackProjects rs), timestamp := some now1 },
             network := false })) := by
  intro env env2 c now1 now2 rs hmiss hthrown hfb hlen
  have hrun : fetchGitHubProjects env c now1 =
      { output := some (fallbackProjects rs)
        cache := { data := some (fallbackProjects rs), timestamp := some now1 }
        network := true } := by
    rw [fetch_miss hmiss]
    simp [runListing, runFallback, hthrown, hfb, hlen]
  refine ⟨by rw [hrun], by rw [hrun], fallbackProjects_length_le rs,
    fallbackProjects_commitCount rs, ?_⟩
  intro hfresh
  rw [hrun]
  exact fetch_hit (cacheFresh_some rfl rfl hfresh)

/-- Claim C10, witness: a thrown listing with a one-repository fallback at
time 0 and a second cycle at time 5, run through `c10_fallback_cached`. -/
theorem c10_witness :
    fetchGitHubProjects c10Env (fetchGitHubProjects c10Env emptyCache 0).cache 5 =
      { output := some (fallbackProjects [plainRepo]),
        cache := { data := some (fallbackProjects [plainRepo]), timestamp := some 0 },
        network := false } :=
  (c10_fallback_cached c10Env c10Env emptyCache 0 5 [plainRepo]
    (by decide) rfl rfl (by decide)).2.2.2.2 (by decide)

end Portfolio
